import Mathlib

/-!
Verification of the CSV ingestion subsystem of the kerala-map-standalone
repository: the quote-aware line tokenizer (`parseCSVLine`), the document
parser (`parseCSV`), the field normalizers (`parseNumeric`, `parsePercentage`,
`formatPhoneNumber`) of `csvParser.ts`, and the resilient cached loader
(`DataLoadingManager.loadCSVData`) of `dataLoadingManager.ts`.

Embedding conventions:
* JavaScript strings are modelled as `List Char`; diagnostic messages are
  Lean `String`s.
* JavaScript numbers are modelled as exact rationals (`ℚ`); `parseFloat` is
  modelled on the character sets actually reachable after the regex strips
  (digits, `.`, `-`), where its grammar is sign, integer digits, optional
  fraction, longest valid prefix, and NaN is `Option.none`.
* The loader's network effects are modelled by an oracle
  `Nat → FetchOutcome` giving the outcome of each fetch attempt, and the
  manager's two `Map`s become association lists inside `LoaderState`;
  `Date` timestamps are modelled as `Option Unit` (a value means a
  `new Date()` was stored).  The loader additionally reports the list of
  attempt indices on which a fetch was issued, so "no network call" is a
  statement about that list.
-/

/-- The ASCII whitespace recognized by this model of JavaScript
`String.prototype.trim` (space, tab, line feed, carriage return, vertical
tab, form feed; the data handled by the repository is ASCII). -/
def isJsWs (c : Char) : Bool :=
  c = ' ' || c = '\t' || c = '\n' || c = '\r' || c = '\x0b' || c = '\x0c'

/-- Model of JavaScript `String.prototype.trim` on `List Char`. -/
def jsTrim (l : List Char) : List Char :=
  ((l.dropWhile isJsWs).reverse.dropWhile isJsWs).reverse

/-- Field emission of `parseCSVLine` (`csvParser.ts` lines 114/124):
`trimFields ? currentField.trim() : currentField`. -/
def emitField (trim : Bool) (cur : List Char) : List Char :=
  if trim then jsTrim cur else cur

/-- The scanning loop of `parseCSVLine` (`csvParser.ts` lines 98-126).
`l` is the unscanned remainder of the line, `cur` the current field buffer,
`inQ` the `inQuotes` flag.  The branches are, in source order: escaped
quote (`inQuotes && nextChar === quoteChar`), quote toggle, unquoted
delimiter, literal character; at end of line the buffered field is emitted
unconditionally (line 124). -/
def parseCSVLineAux (d q : Char) (trim : Bool) :
    List Char → List Char → Bool → List (List Char)
  | [], cur, _ => [emitField trim cur]
  | [c], cur, inQ =>
    if c = q then [emitField trim cur]
    else if c = d && !inQ then [emitField trim cur, emitField trim []]
    else [emitField trim (cur ++ [c])]
  | c :: c2 :: rest, cur, inQ =>
    if c = q then
      if inQ && c2 = q then parseCSVLineAux d q trim rest (cur ++ [q]) true
      else parseCSVLineAux d q trim (c2 :: rest) cur (!inQ)
    else if c = d && !inQ then
      emitField trim cur :: parseCSVLineAux d q trim (c2 :: rest) [] inQ
    else parseCSVLineAux d q trim (c2 :: rest) (cur ++ [c]) inQ

/-- `parseCSVLine(line, delimiter, quoteChar, trimFields)` of
`csvParser.ts` lines 87-127. -/
def parseCSVLine (line : List Char) (d q : Char) (trim : Bool) : List (List Char) :=
  parseCSVLineAux d q trim line [] false

/-- Companion of `parseCSVLineAux` counting how many times the scan takes
the unquoted-delimiter branch: the number of unquoted delimiter occurrences
of the line. -/
def unquotedDelims (d q : Char) : List Char → Bool → Nat
  | [], _ => 0
  | [c], inQ =>
    if c = q then 0
    else if c = d && !inQ then 1
    else 0
  | c :: c2 :: rest, inQ =>
    if c = q then
      if inQ && c2 = q then unquotedDelims d q rest true
      else unquotedDelims d q (c2 :: rest) (!inQ)
    else if c = d && !inQ then 1 + unquotedDelims d q (c2 :: rest) inQ
    else unquotedDelims d q (c2 :: rest) inQ

/-- Companion of `parseCSVLineAux` computing the value of the `inQuotes`
flag when the scan reaches the end of the line. -/
def finalInQ (q : Char) : List Char → Bool → Bool
  | [], inQ => inQ
  | [c], inQ => if c = q then !inQ else inQ
  | c :: c2 :: rest, inQ =>
    if c = q then
      if inQ && c2 = q then finalInQ q rest true
      else finalInQ q (c2 :: rest) (!inQ)
    else finalInQ q (c2 :: rest) inQ

/-- Companion of `parseCSVLineAux` computing the contents of the field
buffer when the scan reaches the end of the line. -/
def finalBuf (d q : Char) : List Char → List Char → Bool → List Char
  | [], cur, _ => cur
  | [c], cur, inQ =>
    if c = q then cur
    else if c = d && !inQ then []
    else cur ++ [c]
  | c :: c2 :: rest, cur, inQ =>
    if c = q then
      if inQ && c2 = q then finalBuf d q rest (cur ++ [q]) true
      else finalBuf d q (c2 :: rest) cur (!inQ)
    else if c = d && !inQ then finalBuf d q (c2 :: rest) [] inQ
    else finalBuf d q (c2 :: rest) (cur ++ [c]) inQ

/-- `CSVParseOptions` of `csvParser.ts` lines 6-12, with the defaults
applied at lines 27-33. -/
structure CSVParseOptions where
  skipEmptyLines : Bool := true
  skipHeaderLines : Nat := 0
  delimiter : Char := ','
  quoteChar : Char := '"'
  trimFields : Bool := true
deriving DecidableEq, Repr

/-- `CSVParseResult` of `csvParser.ts` lines 14-18. -/
structure CSVParseResult where
  headers : List (List Char)
  rows : List (List (List Char))
  errors : List String
deriving DecidableEq, Repr

/-- The diagnostic of `csvParser.ts` line 65:
`Row ${i + skipHeaderLines + 1}: Expected ${headers.length} columns, got ${row.length}`. -/
def rowMsg (lineNo expected got : Nat) : String :=
  "Row " ++ toString lineNo ++ ": Expected " ++ toString expected ++
    " columns, got " ++ toString got

/-- The pad/truncate step of `csvParser.ts` lines 67-72: pad with empty
strings while short, splice down to the header count while long. -/
def fitRow (n : Nat) (row : List (List Char)) : List (List Char) :=
  (row ++ List.replicate (n - row.length) []).take n

/-- `String.prototype.split('\n')` on `List Char`: always returns at least
one (possibly empty) line. -/
def splitLines : List Char → List (List Char)
  | [] => [[]]
  | c :: rest =>
    if c = '\n' then [] :: splitLines rest
    else
      match splitLines rest with
      | l :: ls => (c :: l) :: ls
      | [] => [[c]]

/-- The data-row loop of `parseCSV` (`csvParser.ts` lines 53-79): `i` is
the index of the current line in the post-skip slice (the loop starts at
1), each raw line is trimmed, empty trimmed lines are skipped when
`skipEmptyLines`, and a row whose field count differs from the header
count gets a diagnostic and is padded/truncated.  Returns the accumulated
`(rows, errors)`. -/
def parseRows (opts : CSVParseOptions) (headers : List (List Char)) :
    Nat → List (List Char) → List (List (List Char)) × List String
  | _, [] => ([], [])
  | i, raw :: rest =>
    let line := jsTrim raw
    if opts.skipEmptyLines && line.isEmpty then
      parseRows opts headers (i + 1) rest
    else
      let row := parseCSVLine line opts.delimiter opts.quoteChar opts.trimFields
      let acc := parseRows opts headers (i + 1) rest
      if row.length ≠ headers.length then
        (fitRow headers.length row :: acc.1,
         rowMsg (i + opts.skipHeaderLines + 1) headers.length row.length :: acc.2)
      else (row :: acc.1, acc.2)

/-- `parseCSV(csvText, options)` of `csvParser.ts` lines 23-82: split on
line feeds, drop `skipHeaderLines` lines, bail out with the
`"No data lines found in CSV"` diagnostic when nothing remains, tokenize
the first remaining line (untrimmed) as headers, then run the data-row
loop. -/
def parseCSV (text : List Char) (opts : CSVParseOptions) : CSVParseResult :=
  let dataLines := (splitLines text).drop opts.skipHeaderLines
  match dataLines with
  | [] => ⟨[], [], ["No data lines found in CSV"]⟩
  | firstLine :: rest =>
    let headers := parseCSVLine firstLine opts.delimiter opts.quoteChar opts.trimFields
    let acc := parseRows opts headers 1 rest
    ⟨headers, acc.1, acc.2⟩

example : parseCSV ("Zone,Org\nA,B\nC").data {} =
    ⟨[['Z','o','n','e'], ['O','r','g']],
     [[['A'], ['B']], [['C'], []]],
     ["Row 3: Expected 2 columns, got 1"]⟩ := by decide

example : parseCSVLine ("\"a\"\"b\",c").data ',' '"' false =
    [['a', '"', 'b'], ['c']] := by decide

example : parseCSV [] {} = ⟨[[]], [], []⟩ := by decide

/-- ASCII decimal digit, the `\d` character class of the regexes in
`csvParser.ts`. -/
def isDigitChar (c : Char) : Bool := '0' ≤ c && c ≤ '9'

/-- Value of a digit list read in base 10. -/
def natFromDigits (l : List Char) : Nat :=
  l.foldl (fun acc c => acc * 10 + (c.toNat - '0'.toNat)) 0

/-- Model of JavaScript `parseFloat` on the character sets reachable in
`csvParser.ts` after the regex strips (digits, `.`, `-`): an optional
leading `-`, then the longest prefix of the form digits, optional `.`,
digits; `none` models `NaN` (no digit in the consumed prefix).  Numbers
are modelled as exact rationals. -/
def parseFloatQ (l : List Char) : Option ℚ :=
  let neg := match l with | '-' :: _ => true | _ => false
  let l1 := if neg then l.tail else l
  let intDigits := l1.takeWhile isDigitChar
  let rest1 := l1.drop intDigits.length
  let fracDigits := match rest1 with
    | '.' :: r => r.takeWhile isDigitChar
    | _ => []
  if intDigits.isEmpty && fracDigits.isEmpty then none
  else
    let mag : ℚ := mkRat
      (natFromDigits intDigits * 10 ^ fracDigits.length + natFromDigits fracDigits)
      (10 ^ fracDigits.length)
    some (if neg then -mag else mag)

/-- Model of JavaScript `Number.prototype.toFixed(2)` for a non-negative
rational: the integer number of hundredths closest to the value, ties
rounded up (`⌊100 x + 1/2⌋`, computed here as an integer division so the
kernel can evaluate it), printed with exactly two decimal places. -/
def toFixed2 (x : ℚ) : String :=
  let n : Nat := ((200 * x.num + (x.den : Int)) / (2 * (x.den : Int))).toNat
  let frac := n % 100
  toString (n / 100) ++ "." ++ (if frac < 10 then "0" else "") ++ toString frac

/-- `parseNumeric(value, fallback)` of `csvParser.ts` lines 169-176:
falsy input returns the fallback; otherwise everything but digits, `.`
and `-` is stripped, the remainder is parsed, and `NaN` falls back. -/
def parseNumeric (value : String) (fallback : ℚ) : ℚ :=
  if value = "" then fallback
  else
    let cleaned := value.data.filter fun c => isDigitChar c || c = '.' || c = '-'
    (parseFloatQ cleaned).getD fallback

/-- `parsePercentage(value)` of `csvParser.ts` lines 181-190: falsy input
gives `"0%"`; otherwise everything but digits and `.` is stripped, the
remainder is parsed (`NaN` gives `"0%"`), and the value is printed with
`toFixed(2)` followed by `%`. -/
def parsePercentage (value : String) : String :=
  if value = "" then "0%"
  else
    let cleaned := value.data.filter fun c => isDigitChar c || c = '.'
    match parseFloatQ cleaned with
    | none => "0%"
    | some x => toFixed2 x ++ "%"

/-- `formatPhoneNumber(phone)` of `csvParser.ts` lines 195-207: falsy
input gives `""`; otherwise non-digits are stripped; a 10-digit result is
prefixed `"+91 "`, a 12-digit result starting `"91"` is prefixed `"+"`,
and anything else returns the original input. -/
def formatPhoneNumber (phone : String) : String :=
  if phone = "" then ""
  else
    let cleaned := phone.data.filter isDigitChar
    if cleaned.length = 10 then "+91 " ++ String.mk cleaned
    else if cleaned.length = 12 ∧ cleaned.take 2 = ['9', '1'] then
      "+" ++ String.mk cleaned
    else phone

example : parsePercentage "abc" = "0%" := by decide
example : parsePercentage "12.3xyz" = "12.30%" := by decide
example : parseNumeric "42.5kg" 0 = mkRat 425 10 := by decide
example : parseNumeric "42.5kg" 0 = 85 / 2 := by
  have h : parseNumeric "42.5kg" 0 = mkRat 425 10 := by decide
  rw [h, Rat.mkRat_eq_div]
  norm_num
example : formatPhoneNumber "9876543210" = "+91 9876543210" := by decide

/-- `DataLoadingState` of `dataLoadingManager.ts` lines 8-13; `Date`
timestamps are modelled as `Option Unit`. -/
structure DataLoadingState where
  isLoading : Bool
  isLoaded : Bool
  error : Option String
  lastUpdated : Option Unit
deriving DecidableEq, Repr

/-- The `Partial<DataLoadingState>` argument of `setLoadingState`
(`dataLoadingManager.ts` line 41): a present field overrides the current
state, an absent one is kept. -/
structure StatePatch where
  isLoading : Option Bool := none
  isLoaded : Option Bool := none
  error : Option (Option String) := none
  lastUpdated : Option (Option Unit) := none
deriving DecidableEq, Repr

/-- The spread merge `{ ...currentState, ...state }` of
`dataLoadingManager.ts` line 43. -/
def applyPatch (cur : DataLoadingState) (p : StatePatch) : DataLoadingState :=
  ⟨p.isLoading.getD cur.isLoading, p.isLoaded.getD cur.isLoaded,
   p.error.getD cur.error, p.lastUpdated.getD cur.lastUpdated⟩

/-- `DataLoadingResult<T>` of `dataLoadingManager.ts` lines 15-19. -/
structure DataLoadingResult (T : Type) where
  data : T
  errors : List String
  warnings : List String
deriving DecidableEq, Repr

/-- First-match association-list lookup, modelling `Map.get`. -/
def lookupKey {α : Type} : List (String × α) → String → Option α
  | [], _ => none
  | (k, v) :: rest, key => if k = key then some v else lookupKey rest key

/-- `Map.set` modelled as a prepend (lookup finds the newest binding). -/
def insertKey {α : Type} (k : String) (v : α) (m : List (String × α)) :
    List (String × α) := (k, v) :: m

/-- The mutable fields of a `DataLoadingManager` instance
(`dataLoadingManager.ts` lines 22-23): the per-source loading states and
the data cache.  The listener map only observes state changes and is not
modelled. -/
structure LoaderState (T : Type) where
  loadingStates : List (String × DataLoadingState)
  dataCache : List (String × T)
deriving DecidableEq, Repr

/-- `getLoadingState(dataSource)` of `dataLoadingManager.ts` lines 29-36:
the stored state, or the default idle state. -/
def getLoadingState {T : Type} (st : LoaderState T) (ds : String) : DataLoadingState :=
  (lookupKey st.loadingStates ds).getD ⟨false, false, none, none⟩

/-- `setLoadingState(dataSource, state)` of `dataLoadingManager.ts`
lines 41-52: merge the patch into the current (or default) state and
store it. -/
def setLoadingState {T : Type} (st : LoaderState T) (ds : String) (p : StatePatch) :
    LoaderState T :=
  { st with loadingStates :=
      insertKey ds (applyPatch (getLoadingState st ds) p) st.loadingStates }

/-- Outcome of one `fetch` attempt, as seen through the `try` block of
`loadCSVData`: either a thrown failure (non-2xx status, abort/timeout,
network error — all collapsed by the `catch` into a message) or a
successful response body. -/
inductive FetchOutcome where
  | failure (msg : String)
  | success (body : List Char)
deriving DecidableEq, Repr

/-- The body-level outcome of an attempt: a successful fetch whose body is
blank still throws `'Empty CSV file received'` inside the `try`
(`dataLoadingManager.ts` lines 145-147). -/
def attemptOutcome : FetchOutcome → Except String (List Char)
  | .failure m => .error m
  | .success body =>
    if (jsTrim body).isEmpty then .error "Empty CSV file received" else .ok body

/-- The options object of `loadCSVData` (`dataLoadingManager.ts`
lines 80-92) with its defaults; `cacheKey = none` models the
`cacheKey = dataSource` default. -/
structure LoadOptions where
  skipHeaderLines : Nat := 0
  cacheKey : Option String := none
  retries : Nat := 3
  timeout : Nat := 30000
deriving DecidableEq, Repr

/-- What a call to `loadCSVData` produces in this model: the returned
`DataLoadingResult`, the manager state after the call, and the list of
attempt indices on which a `fetch` was actually issued. -/
structure LoadOutcome (T : Type) where
  result : DataLoadingResult T
  finalState : LoaderState T
  fetchAttempts : List Nat
deriving DecidableEq, Repr

/-- The retry loop of `loadCSVData` (`dataLoadingManager.ts`
lines 122-206), driven by the per-attempt oracle.  `remaining` is the
number of loop iterations still permitted (`retries - attempt + 1`);
when it reaches zero the unreachable tail at lines 209-213 returns.  On a
successful attempt the body is parsed with
`{skipHeaderLines, skipEmptyLines: true, trimFields: true}`, parse errors
and the completion warning are appended, the parsed data is cached and
the state set to loaded; on a failed final attempt the error state is set
and the terminal message returned; otherwise the loop retries (the
backoff delay has no observable effect here). -/
def loadAttempts {T : Type} (ds cacheKey : String) (oracle : Nat → FetchOutcome)
    (parser : CSVParseResult → T) (emptyT : T) (skipHeaderLines retries : Nat) :
    Nat → Nat → List String → List String → LoaderState T → LoadOutcome T
  | 0, _, _, _, st =>
    ⟨⟨emptyT, ["Failed to load " ++ ds], []⟩, st, []⟩
  | remaining + 1, attempt, errs, warns, st =>
    match attemptOutcome (oracle attempt) with
    | .ok body =>
      let pr := parseCSV body
        { skipHeaderLines := skipHeaderLines, skipEmptyLines := true, trimFields := true }
      let errs2 := if pr.errors.length ≠ 0 then errs ++ pr.errors else errs
      let warns2 := if pr.errors.length ≠ 0 then
          warns ++ ["CSV parsing completed with " ++ toString pr.errors.length ++ " errors"]
        else warns
      let data := parser pr
      let st2 : LoaderState T := { st with dataCache := insertKey cacheKey data st.dataCache }
      let st3 := setLoadingState st2 ds
        ⟨some false, some true, some none, some (some ())⟩
      ⟨⟨data, errs2, warns2⟩, st3, [attempt]⟩
    | .error m =>
      if attempt = retries then
        ⟨⟨emptyT,
          ["Failed to load " ++ ds ++ " after " ++ toString retries ++ " attempts: " ++ m],
          []⟩,
         setLoadingState st ds ⟨some false, some false, some (some m), some none⟩,
         [attempt]⟩
      else
        let out := loadAttempts ds cacheKey oracle parser emptyT skipHeaderLines retries
          remaining (attempt + 1) errs warns st
        ⟨out.result, out.finalState, attempt :: out.fetchAttempts⟩

/-- `loadCSVData(dataSource, url, parser, options)` of
`dataLoadingManager.ts` lines 76-214: a cache hit returns immediately
with the cache warning after setting the loaded state and issues no
fetch; otherwise the loading state is set and the retry loop runs with
empty error/warning accumulators.  `emptyT` models the `{} as T` value of
the terminal returns. -/
def loadCSVData {T : Type} (st : LoaderState T) (ds : String)
    (oracle : Nat → FetchOutcome) (parser : CSVParseResult → T) (emptyT : T)
    (opts : LoadOptions) : LoadOutcome T :=
  let cacheKey := opts.cacheKey.getD ds
  match lookupKey st.dataCache cacheKey with
  | some cached =>
    ⟨⟨cached, [], ["Data loaded from cache"]⟩,
     setLoadingState st ds ⟨some false, some true, some none, some (some ())⟩,
     []⟩
  | none =>
    let st1 := setLoadingState st ds ⟨some true, some false, some none, some none⟩
    loadAttempts ds cacheKey oracle parser emptyT opts.skipHeaderLines opts.retries
      opts.retries 1 [] [] st1

example :
    (loadCSVData (T := Nat) ⟨[], []⟩ "src" (fun _ => .failure "boom")
      (fun _ => 0) 0 {}).result =
    ⟨0, ["Failed to load src after 3 attempts: boom"], []⟩ := by decide

example :
    getLoadingState
      (loadCSVData (T := Nat) ⟨[], []⟩ "src" (fun _ => .failure "boom")
        (fun _ => 0) 0 {}).finalState "src" =
    ⟨false, false, some "boom", none⟩ := by decide

example :
    (loadCSVData (T := Nat) ⟨[], [("src", 7)]⟩ "src" (fun _ => .failure "boom")
      (fun _ => 0) 0 {}).result =
    ⟨7, [], ["Data loaded from cache"]⟩ := by decide

theorem emitField_nil (trim : Bool) : emitField trim [] = [] := by
  cases trim <;> simp [emitField, jsTrim]

theorem parseCSVLineAux_length (d q : Char) (trim : Bool) (l cur : List Char) (inQ : Bool) :
    (parseCSVLineAux d q trim l cur inQ).length = 1 + unquotedDelims d q l inQ := by
  induction l, cur, inQ using parseCSVLineAux.induct d q trim with
  | case1 cur inQ => simp [parseCSVLineAux, unquotedDelims]
  | case2 cur inQ => simp [parseCSVLineAux, unquotedDelims]
  | case3 c cur inQ h1 h2 => simp [parseCSVLineAux, unquotedDelims, h1, h2]
  | case4 c cur inQ h1 h2 => simp [parseCSVLineAux, unquotedDelims, h1, h2]
  | case5 c2 rest cur inQ h ih => simp [parseCSVLineAux, unquotedDelims, h, ih]
  | case6 c2 rest cur inQ h ih => simp [parseCSVLineAux, unquotedDelims, h, ih]
  | case7 c c2 rest cur inQ h1 h2 ih =>
    simp [parseCSVLineAux, unquotedDelims, h1, h2, ih]; omega
  | case8 c c2 rest cur inQ h1 h2 ih => simp [parseCSVLineAux, unquotedDelims, h1, h2, ih]

theorem parseCSVLineAux_trim_eq_map (d q : Char) (l cur : List Char) (inQ : Bool) :
    parseCSVLineAux d q true l cur inQ =
      (parseCSVLineAux d q false l cur inQ).map jsTrim := by
  induction l, cur, inQ using parseCSVLineAux.induct d q true with
  | case1 cur inQ => simp [parseCSVLineAux, emitField]
  | case2 cur inQ => simp [parseCSVLineAux, emitField]
  | case3 c cur inQ h1 h2 => simp [parseCSVLineAux, emitField, h1, h2]
  | case4 c cur inQ h1 h2 => simp [parseCSVLineAux, emitField, h1, h2]
  | case5 c2 rest cur inQ h ih => simp [parseCSVLineAux, h, ih]
  | case6 c2 rest cur inQ h ih => simp [parseCSVLineAux, h, ih]
  | case7 c c2 rest cur inQ h1 h2 ih => simp [parseCSVLineAux, emitField, h1, h2, ih]
  | case8 c c2 rest cur inQ h1 h2 ih => simp [parseCSVLineAux, h1, h2, ih]

theorem parseCSVLineAux_getLast (d q : Char) (trim : Bool) (l cur : List Char) (inQ : Bool) :
    (parseCSVLineAux d q trim l cur inQ).getLast? =
      some (emitField trim (finalBuf d q l cur inQ)) := by
  induction l, cur, inQ using parseCSVLineAux.induct d q trim with
  | case1 cur inQ => simp [parseCSVLineAux, finalBuf]
  | case2 cur inQ => simp [parseCSVLineAux, finalBuf]
  | case3 c cur inQ h1 h2 => simp [parseCSVLineAux, finalBuf, h1, h2]
  | case4 c cur inQ h1 h2 => simp [parseCSVLineAux, finalBuf, h1, h2]
  | case5 c2 rest cur inQ h ih => simp [parseCSVLineAux, finalBuf, h, ih]
  | case6 c2 rest cur inQ h ih => simp [parseCSVLineAux, finalBuf, h, ih]
  | case7 c c2 rest cur inQ h1 h2 ih =>
    have hne : parseCSVLineAux d q trim (c2 :: rest) [] inQ ≠ [] := by
      intro hnil
      have hlen := parseCSVLineAux_length d q trim (c2 :: rest) [] inQ
      rw [hnil] at hlen
      simp at hlen
      omega
    simp [parseCSVLineAux, finalBuf, h1, h2, ih, List.getLast?_cons, hne]
  | case8 c c2 rest cur inQ h1 h2 ih => simp [parseCSVLineAux, finalBuf, h1, h2, ih]

theorem parseCSVLineAux_trailing_delim (d q : Char) (trim : Bool)
    (hdq : d ≠ q) (l cur : List Char) (inQ : Bool) :
    finalInQ q l inQ = false →
    parseCSVLineAux d q trim (l ++ [d]) cur inQ =
      parseCSVLineAux d q trim l cur inQ ++ [emitField trim []] := by
  induction l, cur, inQ using parseCSVLineAux.induct d q trim with
  | case1 cur inQ =>
    intro hf
    simp [finalInQ] at hf
    simp [parseCSVLineAux, hdq, hf]
  | case2 cur inQ =>
    intro hf
    simp [finalInQ] at hf
    simp [parseCSVLineAux, hdq, Ne.symm hdq, hf]
  | case3 c cur inQ h1 h2 =>
    intro hf
    simp [finalInQ, h1] at hf
    subst hf
    simp only [Bool.and_eq_true, decide_eq_true_eq] at h2
    simp [parseCSVLineAux, h1, h2.1, hdq, Ne.symm hdq]
  | case4 c cur inQ h1 h2 =>
    intro hf
    simp [finalInQ, h1] at hf
    subst hf
    simp at h2
    simp [parseCSVLineAux, h1, h2, hdq, Ne.symm hdq]
  | case5 c2 rest cur inQ h ih =>
    intro hf
    simp [finalInQ, h] at hf
    simp only [List.cons_append, parseCSVLineAux, h, if_true]
    simp [h]
    exact ih hf
  | case6 c2 rest cur inQ h ih =>
    intro hf
    simp [finalInQ, h] at hf
    simp [parseCSVLineAux, h]
    exact ih hf
  | case7 c c2 rest cur inQ h1 h2 ih =>
    intro hf
    simp [finalInQ, h1] at hf
    simp [parseCSVLineAux, h1, h2]
    exact ih hf
  | case8 c c2 rest cur inQ h1 h2 ih =>
    intro hf
    simp [finalInQ, h1] at hf
    simp [parseCSVLineAux, h1, h2]
    exact ih hf

/-- Claim C6: `parseCSVLine` emits the final buffered field unconditionally
at end of line: the number of fields is always one more than the number of
unquoted delimiter occurrences (so a line with zero unquoted delimiters
yields exactly one field); appending an unquoted delimiter to a line whose
scan ends outside quotes appends a trailing empty field; and the scan is
total — even with an unterminated quote the last emitted field is exactly
the flushed buffer contents. -/
theorem c6_final_field_emission (line : List Char) (d q : Char) (trim : Bool) :
    (parseCSVLine line d q trim).length = 1 + unquotedDelims d q line false
    ∧ (unquotedDelims d q line false = 0 → (parseCSVLine line d q trim).length = 1)
    ∧ (d ≠ q → finalInQ q line false = false →
        parseCSVLine (line ++ [d]) d q trim = parseCSVLine line d q trim ++ [[]])
    ∧ (parseCSVLine line d q trim).getLast? =
        some (emitField trim (finalBuf d q line [] false)) := by
  refine ⟨parseCSVLineAux_length d q trim line [] false, ?_, ?_, ?_⟩
  · intro h0
    simp only [parseCSVLine]
    rw [parseCSVLineAux_length d q trim line [] false, h0]
  · intro hdq hf
    have h := parseCSVLineAux_trailing_delim d q trim hdq line [] false hf
    rw [parseCSVLine, parseCSVLine, h, emitField_nil]
  · exact parseCSVLineAux_getLast d q trim line [] false

theorem c6_final_field_emission_witness :
    (parseCSVLine ['a', 'b'] ',' '"' true).length = 1
    ∧ parseCSVLine ['a', 'b', ','] ',' '"' true =
        parseCSVLine ['a', 'b'] ',' '"' true ++ [[]] := by
  have h := c6_final_field_emission ['a', 'b'] ',' '"' true
  exact ⟨h.2.1 (by decide), by
    have h2 := h.2.2.1 (by decide) (by decide)
    simpa using h2⟩

/-- Claim C7: with `trimFields = true` the tokenizer trims the entire field
value after quote removal (the trimmed run is exactly the untrimmed run
mapped through trim), so whitespace enclosed in quotes is not protected:
the field written `" a "` (quote, space, a, space, quote) tokenizes to
`"a"`, not `" a "`. -/
theorem c7_trim_after_quote_removal :
    (∀ (line : List Char) (d q : Char),
        parseCSVLine line d q true = (parseCSVLine line d q false).map jsTrim)
    ∧ parseCSVLine ['"', ' ', 'a', ' ', '"'] ',' '"' true = [['a']] := by
  constructor
  · intro line d q
    exact parseCSVLineAux_trim_eq_map d q line [] false
  · decide

/-- Escaping used when building a quoted CSV field: every quote character
inside the field is doubled. -/
def escapeQuotes (q : Char) : List Char → List Char
  | [] => []
  | c :: rest =>
    if c = q then q :: q :: escapeQuotes q rest else c :: escapeQuotes q rest

/-- A field wrapped in the quote character with its inner quotes doubled. -/
def quoteField (q : Char) (f : List Char) : List Char :=
  q :: (escapeQuotes q f ++ [q])

/-- A line built by joining quoted fields with the delimiter. -/
def buildLine (d q : Char) : List (List Char) → List Char
  | [] => []
  | [f] => quoteField q f
  | f :: f2 :: rest => quoteField q f ++ d :: buildLine d q (f2 :: rest)

theorem parseCSVLineAux_quoted_body (d q : Char) (hdq : d ≠ q) (f : List Char) :
    ∀ (cur suffix : List Char), (suffix = [] ∨ suffix.head? = some d) →
    parseCSVLineAux d q false (escapeQuotes q f ++ [q] ++ suffix) cur true =
      parseCSVLineAux d q false suffix (cur ++ f) false := by
  induction f with
  | nil =>
    intro cur suffix hsuf
    rcases hsuf with h | h
    · subst h
      simp [escapeQuotes, parseCSVLineAux, emitField]
    · rcases suffix with _ | ⟨s1, s'⟩
      · simp at h
      · simp at h
        subst h
        simp [escapeQuotes, parseCSVLineAux, hdq, Ne.symm hdq]
  | cons a f' ih =>
    intro cur suffix hsuf
    by_cases ha : a = q
    · subst ha
      have hesc : escapeQuotes a (a :: f') ++ [a] ++ suffix
          = a :: a :: (escapeQuotes a f' ++ [a] ++ suffix) := by
        simp [escapeQuotes]
      rw [hesc]
      have hstep :
          parseCSVLineAux d a false (a :: a :: (escapeQuotes a f' ++ [a] ++ suffix)) cur true
          = parseCSVLineAux d a false (escapeQuotes a f' ++ [a] ++ suffix) (cur ++ [a]) true := by
        simp [parseCSVLineAux]
      rw [hstep, ih (cur ++ [a]) suffix hsuf]
      simp
    · have hesc : escapeQuotes q (a :: f') ++ [q] ++ suffix
          = a :: (escapeQuotes q f' ++ [q] ++ suffix) := by
        simp [escapeQuotes, ha]
      rw [hesc]
      obtain ⟨e1, e', hE⟩ : ∃ e1 e', escapeQuotes q f' ++ [q] ++ suffix = e1 :: e' := by
        rcases hc : escapeQuotes q f' ++ [q] ++ suffix with _ | ⟨x, xs⟩
        · simp at hc
        · exact ⟨x, xs, rfl⟩
      rw [hE]
      have hstep : parseCSVLineAux d q false (a :: e1 :: e') cur true
          = parseCSVLineAux d q false (e1 :: e') (cur ++ [a]) true := by
        simp [parseCSVLineAux, ha]
      rw [hstep, ← hE, ih (cur ++ [a]) suffix hsuf]
      simp

theorem buildLine_cons_shape (d q : Char) (f : List Char) (fs : List (List Char)) :
    ∃ t, buildLine d q (f :: fs) = q :: t := by
  cases fs <;> exact ⟨_, rfl⟩

theorem parseCSVLineAux_buildLine (d q : Char) (hdq : d ≠ q) :
    ∀ (fs : List (List Char)) (f cur : List Char),
    parseCSVLineAux d q false (buildLine d q (f :: fs)) cur false = (cur ++ f) :: fs := by
  intro fs
  induction fs with
  | nil =>
    intro f cur
    obtain ⟨e1, e', hE⟩ : ∃ e1 e', escapeQuotes q f ++ [q] = e1 :: e' := by
      rcases hc : escapeQuotes q f ++ [q] with _ | ⟨x, xs⟩
      · simp at hc
      · exact ⟨x, xs, rfl⟩
    have hb : buildLine d q [f] = q :: e1 :: e' := by
      rw [buildLine, quoteField, hE]
    rw [hb]
    have hstep : parseCSVLineAux d q false (q :: e1 :: e') cur false
        = parseCSVLineAux d q false (e1 :: e') cur true := by
      simp [parseCSVLineAux]
    rw [hstep, ← hE]
    have hA := parseCSVLineAux_quoted_body d q hdq f cur [] (Or.inl rfl)
    simp only [List.append_nil] at hA
    rw [hA]
    simp [parseCSVLineAux, emitField]
  | cons f2 fs' ih =>
    intro f cur
    obtain ⟨b1, b', hB⟩ : ∃ b1 b', buildLine d q (f2 :: fs') = b1 :: b' := by
      obtain ⟨t, ht⟩ := buildLine_cons_shape d q f2 fs'
      exact ⟨q, t, ht⟩
    have hb : buildLine d q (f :: f2 :: fs')
        = q :: (escapeQuotes q f ++ [q] ++ (d :: buildLine d q (f2 :: fs'))) := by
      rw [buildLine, quoteField]
      simp
    rw [hb]
    obtain ⟨e1, e', hE⟩ :
        ∃ e1 e', escapeQuotes q f ++ [q] ++ (d :: buildLine d q (f2 :: fs')) = e1 :: e' := by
      rcases hc : escapeQuotes q f ++ [q] ++ (d :: buildLine d q (f2 :: fs')) with _ | ⟨x, xs⟩
      · simp at hc
      · exact ⟨x, xs, rfl⟩
    rw [hE]
    have hstep : parseCSVLineAux d q false (q :: e1 :: e') cur false
        = parseCSVLineAux d q false (e1 :: e') cur true := by
      simp [parseCSVLineAux]
    rw [hstep, ← hE]
    have hA := parseCSVLineAux_quoted_body d q hdq f cur
      (d :: buildLine d q (f2 :: fs')) (Or.inr (by simp))
    rw [hA, hB]
    have hstep2 : parseCSVLineAux d q false (d :: b1 :: b') (cur ++ f) false
        = emitField false (cur ++ f) :: parseCSVLineAux d q false (b1 :: b') [] false := by
      simp [parseCSVLineAux, hdq]
    rw [hstep2, ← hB, ih f2 []]
    simp [emitField]

/-- Claim C2 counterexample: the round-trip claim quantified over every
sequence of fields, every delimiter/quote pair and an unconstrained
`trimFields` fails on the code in three ways: with `trimFields = true` a
field with surrounding whitespace (here `" a "`) comes back trimmed; with
`delimiter = quoteChar` the quote branch shadows the delimiter branch and
`["a", "b"]` comes back as the single field `a"b`; and the empty field
sequence builds the empty line, which tokenizes to one empty field, not
zero fields. -/
theorem c2_roundtrip_cex :
    parseCSVLine (buildLine ',' '"' [[' ', 'a', ' ']]) ',' '"' true = [['a']]
    ∧ parseCSVLine (buildLine '"' '"' [['a'], ['b']]) '"' '"' false = [['a', '"', 'b']]
    ∧ parseCSVLine (buildLine ',' '"' []) ',' '"' false = [[]] := by
  refine ⟨by decide, by decide, by decide⟩

/-- Claim C2 amended: round-trip: for every *nonempty* sequence of
fields, wrapping each field in the quote character with inner quotes
doubled and joining with the delimiter, then tokenizing with
`parseCSVLine` with the same delimiter and quote character, a *distinct*
quote character, and `trimFields = false`, recovers the original field
values exactly. -/
theorem c2_roundtrip (d q : Char) (fields : List (List Char))
    (hdq : d ≠ q) (hne : fields ≠ []) :
    parseCSVLine (buildLine d q fields) d q false = fields := by
  rcases fields with _ | ⟨f, fs⟩
  · exact absurd rfl hne
  · rw [parseCSVLine, parseCSVLineAux_buildLine d q hdq fs f []]
    simp

theorem c2_roundtrip_witness :
    parseCSVLine (buildLine ',' '"' [['a', ','], ['b', '"', 'c'], []]) ',' '"' false
      = [['a', ','], ['b', '"', 'c'], []] :=
  c2_roundtrip ',' '"' [['a', ','], ['b', '"', 'c'], []] (by decide) (by decide)

theorem fitRow_length (n : Nat) (row : List (List Char)) : (fitRow n row).length = n := by
  simp [fitRow]
  omega

theorem parseRows_row_length (opts : CSVParseOptions) (hdrs : List (List Char)) :
    ∀ (tail : List (List Char)) (i : Nat),
    ∀ row ∈ (parseRows opts hdrs i tail).1, row.length = hdrs.length := by
  intro tail
  induction tail with
  | nil => intro i row hrow; simp [parseRows] at hrow
  | cons raw rest ih =>
    intro i row hrow
    rw [parseRows] at hrow
    by_cases hskip : (opts.skipEmptyLines && (jsTrim raw).isEmpty) = true
    · rw [if_pos hskip] at hrow
      exact ih (i + 1) row hrow
    · rw [if_neg hskip] at hrow
      by_cases hlen :
          (parseCSVLine (jsTrim raw) opts.delimiter opts.quoteChar opts.trimFields).length
            ≠ hdrs.length
      · rw [if_pos hlen] at hrow
        rcases List.mem_cons.mp hrow with h | h
        · rw [h]; exact fitRow_length _ _
        · exact ih (i + 1) row h
      · rw [if_neg hlen] at hrow
        rcases List.mem_cons.mp hrow with h | h
        · rw [h]; omega
        · exact ih (i + 1) row h

/-- The diagnostics predicted by the C1 claim: exactly one message per
non-skipped data line whose raw tokenized field count differs from the
header count `n`, naming the absolute line number
(`index in slice + skipHeaderLines + 1`) and the expected and actual
counts, in line order. -/
def diagnosticsSpec (opts : CSVParseOptions) (n : Nat) (tail : List (List Char)) :
    List String :=
  (List.enumFrom 1 tail).filterMap fun p =>
    if opts.skipEmptyLines && (jsTrim p.2).isEmpty then none
    else
      let got := (parseCSVLine (jsTrim p.2) opts.delimiter opts.quoteChar opts.trimFields).length
      if got ≠ n then some (rowMsg (p.1 + opts.skipHeaderLines + 1) n got) else none

theorem parseRows_errors (opts : CSVParseOptions) (hdrs : List (List Char)) :
    ∀ (tail : List (List Char)) (i : Nat),
    (parseRows opts hdrs i tail).2 =
      (List.enumFrom i tail).filterMap fun p =>
        if opts.skipEmptyLines && (jsTrim p.2).isEmpty then none
        else
          let got :=
            (parseCSVLine (jsTrim p.2) opts.delimiter opts.quoteChar opts.trimFields).length
          if got ≠ hdrs.length then
            some (rowMsg (p.1 + opts.skipHeaderLines + 1) hdrs.length got)
          else none := by
  intro tail
  induction tail with
  | nil => intro i; simp [parseRows]
  | cons raw rest ih =>
    intro i
    rw [parseRows, List.enumFrom, List.filterMap_cons]
    by_cases hskip : (opts.skipEmptyLines && (jsTrim raw).isEmpty) = true
    · rw [if_pos hskip, if_pos hskip]
      exact ih (i + 1)
    · rw [if_neg hskip, if_neg hskip]
      by_cases hlen :
          (parseCSVLine (jsTrim raw) opts.delimiter opts.quoteChar opts.trimFields).length
            ≠ hdrs.length
      · rw [if_pos hlen, if_pos hlen]
        exact congrArg (rowMsg (i + opts.skipHeaderLines + 1) hdrs.length _ :: ·) (ih (i + 1))
      · rw [if_neg hlen, if_neg hlen]
        exact ih (i + 1)

/-- Claim C1: every row of a `parseCSV` result has exactly the header
length (short raw rows are padded, long ones truncated before being
appended), and whenever any data lines exist the `errors` list consists of
exactly one diagnostic — naming the absolute line number and the expected
and actual column counts — for each non-skipped data line whose raw
tokenized field count differed from the header count. -/
theorem c1_row_invariant_and_diagnostics (text : List Char) (opts : CSVParseOptions) :
    (∀ row ∈ (parseCSV text opts).rows, row.length = (parseCSV text opts).headers.length)
    ∧ (∀ firstLine tail,
        (splitLines text).drop opts.skipHeaderLines = firstLine :: tail →
        (parseCSV text opts).errors =
          diagnosticsSpec opts
            (parseCSVLine firstLine opts.delimiter opts.quoteChar opts.trimFields).length
            tail) := by
  rcases hdl : (splitLines text).drop opts.skipHeaderLines with _ | ⟨first, tail⟩
  · constructor
    · intro row hrow
      simp [parseCSV, hdl] at hrow
    · intro f t h
      exact absurd h (by simp)
  · constructor
    · intro row hrow
      simp only [parseCSV, hdl] at hrow ⊢
      exact parseRows_row_length opts _ tail 1 row hrow
    · intro f t h
      injection h with h1 h2
      subst h1
      subst h2
      simp only [parseCSV, hdl, diagnosticsSpec]
      exact parseRows_errors opts _ tail 1

theorem c1_row_invariant_witness :
    (parseCSV ("Zone,Org\nA,B\nC").data {}).errors =
      diagnosticsSpec {} 2 [['A', ',', 'B'], ['C']] := by
  have h := (c1_row_invariant_and_diagnostics ("Zone,Org\nA,B\nC").data {}).2
    ['Z', 'o', 'n', 'e', ',', 'O', 'r', 'g'] [['A', ',', 'B'], ['C']] (by decide)
  simpa using h

/-- Claim C5 counterexample: the claim's parenthetical "in particular for
an empty document" fails at `skipHeaderLines = 0` (the default): the
line-feed split of the empty document is a single empty line, so a data
line remains, and `parseCSV` returns one empty header field and *no*
error, not the empty result with the `"No data lines found in CSV"`
diagnostic. -/
theorem c5_empty_doc_cex :
    parseCSV [] {} = ⟨[[]], [], []⟩
    ∧ parseCSV [] {} ≠ ⟨[], [], ["No data lines found in CSV"]⟩ := by
  constructor
  · decide
  · decide

/-- Claim C5 amended: for every input text and options, if no lines
remain after dropping the first `skipHeaderLines` lines of the line-feed
split (which for an empty document happens exactly when
`skipHeaderLines ≥ 1`, since the split of an empty document is one empty
line), `parseCSV` returns exactly
`{headers: [], rows: [], errors: ["No data lines found in CSV"]}`. -/
theorem c5_no_data_lines (text : List Char) (opts : CSVParseOptions)
    (h : (splitLines text).drop opts.skipHeaderLines = []) :
    parseCSV text opts = ⟨[], [], ["No data lines found in CSV"]⟩ := by
  simp [parseCSV, h]

theorem c5_no_data_lines_witness :
    parseCSV [] { skipHeaderLines := 1 } = ⟨[], [], ["No data lines found in CSV"]⟩ :=
  c5_no_data_lines [] { skipHeaderLines := 1 } (by decide)

theorem jsTrim_ws_pre (pre x : List Char) (h : ∀ c ∈ pre, isJsWs c) :
    jsTrim (pre ++ x) = jsTrim x := by
  have hpre : (List.dropWhile isJsWs pre).isEmpty = true := by
    rw [List.isEmpty_iff, List.dropWhile_eq_nil_iff]
    exact h
  unfold jsTrim
  rw [List.dropWhile_append, if_pos hpre]

theorem jsTrim_ws_post (x post : List Char) (h : ∀ c ∈ post, isJsWs c) :
    jsTrim (x ++ post) = jsTrim x := by
  have hpost : post.dropWhile isJsWs = [] := List.dropWhile_eq_nil_iff.mpr h
  have hrev : (List.dropWhile isJsWs post.reverse).isEmpty = true := by
    rw [List.isEmpty_iff, List.dropWhile_eq_nil_iff]
    intro c hc
    exact h c (List.mem_reverse.mp hc)
  unfold jsTrim
  rw [List.dropWhile_append]
  by_cases hx : (x.dropWhile isJsWs).isEmpty = true
  · rw [if_pos hx]
    rw [List.isEmpty_iff] at hx
    rw [hx, hpost]
  · rw [if_neg hx]
    rw [List.reverse_append, List.dropWhile_append, if_pos hrev]

theorem parseRows_ws_line_invariant (opts : CSVParseOptions) (hdrs : List (List Char))
    (i : Nat) (pre l post : List Char) (rest : List (List Char))
    (hpre : ∀ c ∈ pre, isJsWs c) (hpost : ∀ c ∈ post, isJsWs c) :
    parseRows opts hdrs i ((pre ++ l ++ post) :: rest) = parseRows opts hdrs i (l :: rest) := by
  have htrim : jsTrim (pre ++ l ++ post) = jsTrim l := by
    rw [jsTrim_ws_post (pre ++ l) post hpost, jsTrim_ws_pre pre l hpre]
  rw [parseRows, parseRows, htrim]

/-- Claim C10 counterexample: "leading whitespace of a data row's first
field ... always removed" fails when the whitespace is protected by
quotes: on `"h,i\n\" x\",y"` with `trimFields = false` the data row's
first field is `" x"`, which retains its leading space (only the raw
line's own surrounding whitespace is trimmed, and here there is none
inside the quotes to trim). -/
theorem c10_quoted_ws_cex :
    (parseCSV ("h,i\n\" x\",y").data { trimFields := false }).rows
      = [[[' ', 'x'], ['y']]] := by decide

/-- Claim C10 amended: `parseCSV` tokenizes each data line only after
trimming its surrounding whitespace: surrounding whitespace of the raw
data line (including a carriage return from a CRLF ending) never reaches
the fields even when `trimFields` is false — though whitespace enclosed
in quotes is preserved — while the header line is tokenized untrimmed and
can retain surrounding whitespace.  Part one states the data-line
invariance under added surrounding whitespace; part two exhibits a
document whose header fields keep their surrounding spaces while the
data row loses its line-level spaces and trailing `'\r'` but keeps
field-internal ones. -/
theorem c10_data_line_pretrim :
    (∀ (opts : CSVParseOptions) (hdrs : List (List Char)) (i : Nat)
        (pre l post : List Char) (rest : List (List Char)),
        (∀ c ∈ pre, isJsWs c) → (∀ c ∈ post, isJsWs c) →
        parseRows opts hdrs i ((pre ++ l ++ post) :: rest) =
          parseRows opts hdrs i (l :: rest))
    ∧ parseCSV (" h1 , h2 \n xx , yy \r").data { trimFields := false } =
        ⟨[[' ', 'h', '1', ' '], [' ', 'h', '2', ' ']],
         [[['x', 'x', ' '], [' ', 'y', 'y']]], []⟩ := by
  constructor
  · intro opts hdrs i pre l post rest hpre hpost
    exact parseRows_ws_line_invariant opts hdrs i pre l post rest hpre hpost
  · decide

theorem c10_data_line_pretrim_witness :
    parseRows { trimFields := false } [['h']] 1 [[' ', 'a', ' ']] =
      parseRows { trimFields := false } [['h']] 1 [['a']] := by
  have h := c10_data_line_pretrim.1 { trimFields := false } [['h']] 1
    [' '] ['a'] [' '] [] (by decide) (by decide)
  simpa using h

/-- Claim C8: the field-normalizer contracts at the claim's four probe
points: `parsePercentage` strips everything but digits and `.`, parses,
and prints two decimal places with a trailing `%`, returning `"0%"` when
nothing numeric remains; `parseNumeric` strips everything but digits,
`.` and `-`, and falls back on a parse failure.  (JavaScript numbers are
modelled as exact rationals; at these inputs IEEE-754 doubles and exact
rationals print identically.) -/
theorem c8_normalizer_examples :
    parsePercentage "abc" = "0%"
    ∧ parsePercentage "12.3xyz" = "12.30%"
    ∧ parseNumeric "N/A" 5 = 5
    ∧ parseNumeric "42.5kg" 0 = 85 / 2 := by
  refine ⟨by decide, by decide, by decide, ?_⟩
  have h : parseNumeric "42.5kg" 0 = mkRat 425 10 := by decide
  rw [h, Rat.mkRat_eq_div]
  norm_num

/-- Claim C9: `formatPhoneNumber` strips all non-digit characters and then:
a 10-digit result is returned prefixed `"+91 "`, a 12-digit result
beginning `"91"` is returned prefixed `"+"`, and any other length returns
the original input unmodified; with the claim's three probe points. -/
theorem c9_format_phone (s : String) :
    ((s.data.filter isDigitChar).length = 10 →
      formatPhoneNumber s = "+91 " ++ String.mk (s.data.filter isDigitChar))
    ∧ ((s.data.filter isDigitChar).length = 12 →
        (s.data.filter isDigitChar).take 2 = ['9', '1'] →
        formatPhoneNumber s = "+" ++ String.mk (s.data.filter isDigitChar))
    ∧ ((s.data.filter isDigitChar).length ≠ 10 →
        ¬((s.data.filter isDigitChar).length = 12 ∧
          (s.data.filter isDigitChar).take 2 = ['9', '1']) →
        formatPhoneNumber s = s)
    ∧ formatPhoneNumber "9876543210" = "+91 9876543210"
    ∧ formatPhoneNumber "919876543210" = "+919876543210"
    ∧ formatPhoneNumber "123" = "123" := by
  refine ⟨?_, ?_, ?_, by decide, by decide, by decide⟩
  · intro h10
    have hs : ¬s = "" := by
      intro he
      rw [he] at h10
      simp at h10
    simp [formatPhoneNumber, hs, h10]
  · intro h12 htake
    have hs : ¬s = "" := by
      intro he
      rw [he] at h12
      simp at h12
    have h10 : ¬(s.data.filter isDigitChar).length = 10 := by omega
    simp [formatPhoneNumber, hs, h10, h12, htake]
  · intro h10 hnot
    by_cases hs : s = ""
    · rw [hs]
      simp [formatPhoneNumber]
    · simp [formatPhoneNumber, hs, h10, hnot]

theorem c9_format_phone_witness : formatPhoneNumber "5551234" = "5551234" :=
  (c9_format_phone "5551234").2.2.1 (by decide) (by decide)

theorem lookupKey_insertKey_self {α : Type} (k : String) (v : α) (m : List (String × α)) :
    lookupKey (insertKey k v m) k = some v := by
  simp [insertKey, lookupKey]

theorem getLoadingState_set_self {T : Type} (st : LoaderState T) (ds : String)
    (p : StatePatch) :
    getLoadingState (setLoadingState st ds p) ds = applyPatch (getLoadingState st ds) p := by
  simp [getLoadingState, setLoadingState, lookupKey_insertKey_self]

theorem loadAttempts_all_fail {T : Type} (ds ck : String) (oracle : Nat → FetchOutcome)
    (parser : CSVParseResult → T) (emptyT : T) (shl retries : Nat) (msgs : Nat → String) :
    ∀ (r attempt : Nat) (errs warns : List String) (st : LoaderState T),
    attempt + r = retries + 1 → 1 ≤ r →
    (∀ i, attempt ≤ i → i ≤ retries → attemptOutcome (oracle i) = .error (msgs i)) →
    (loadAttempts ds ck oracle parser emptyT shl retries r attempt errs warns st).result =
      ⟨emptyT, ["Failed to load " ++ ds ++ " after " ++ toString retries ++ " attempts: "
          ++ msgs retries], []⟩
    ∧ (loadAttempts ds ck oracle parser emptyT shl retries r attempt errs warns st).finalState =
      setLoadingState st ds ⟨some false, some false, some (some (msgs retries)), some none⟩ := by
  intro r
  induction r with
  | zero =>
    intro attempt errs warns st h1 h2 h3
    omega
  | succ n ih =>
    intro attempt errs warns st h1 _ h3
    have hat : attempt ≤ retries := by omega
    have horacle := h3 attempt le_rfl hat
    by_cases heq : attempt = retries
    · subst heq
      rw [loadAttempts, horacle]
      simp
    · have hn1 : 1 ≤ n := by omega
      rw [loadAttempts, horacle]
      simp only [if_neg heq]
      have hrec := ih (attempt + 1) errs warns st (by omega) hn1
        (fun i hi1 hi2 => h3 i (by omega) hi2)
      exact ⟨hrec.1, hrec.2⟩

/-- Claim C3: when the cache misses and every one of the `retries` fetch
attempts fails (a thrown fetch error or an empty body), `loadCSVData`
returns — never throws — a result whose data is the empty value, whose
errors list is exactly the one terminal message naming the data source,
the number of attempts and the final failure message, and whose warnings
list is empty; and the source's loading state ends with
`isLoading = false`, `isLoaded = false` and `error` set to the final
failure message. -/
theorem c3_retries_exhausted {T : Type} (st : LoaderState T) (ds : String)
    (oracle : Nat → FetchOutcome) (parser : CSVParseResult → T) (emptyT : T)
    (opts : LoadOptions) (msgs : Nat → String)
    (hcache : lookupKey st.dataCache (opts.cacheKey.getD ds) = none)
    (hret : 1 ≤ opts.retries)
    (hfail : ∀ i, 1 ≤ i → i ≤ opts.retries → attemptOutcome (oracle i) = .error (msgs i)) :
    (loadCSVData st ds oracle parser emptyT opts).result =
      ⟨emptyT, ["Failed to load " ++ ds ++ " after " ++ toString opts.retries
          ++ " attempts: " ++ msgs opts.retries], []⟩
    ∧ getLoadingState (loadCSVData st ds oracle parser emptyT opts).finalState ds =
      ⟨false, false, some (msgs opts.retries), none⟩ := by
  have hmain := loadAttempts_all_fail ds (opts.cacheKey.getD ds) oracle parser emptyT
    opts.skipHeaderLines opts.retries msgs opts.retries 1 [] []
    (setLoadingState st ds ⟨some true, some false, some none, some none⟩)
    (by omega) hret hfail
  have hload : loadCSVData st ds oracle parser emptyT opts =
      loadAttempts ds (opts.cacheKey.getD ds) oracle parser emptyT opts.skipHeaderLines
        opts.retries opts.retries 1 [] []
        (setLoadingState st ds ⟨some true, some false, some none, some none⟩) := by
    rw [loadCSVData, hcache]
  rw [hload]
  refine ⟨hmain.1, ?_⟩
  rw [hmain.2, getLoadingState_set_self]
  rfl

theorem c3_retries_exhausted_witness :
    (loadCSVData (T := Nat) ⟨[], []⟩ "src" (fun _ => .failure "boom")
        (fun _ => 0) 0 {}).result
      = ⟨0, ["Failed to load src after 3 attempts: boom"], []⟩
    ∧ getLoadingState
        (loadCSVData (T := Nat) ⟨[], []⟩ "src" (fun _ => .failure "boom")
          (fun _ => 0) 0 {}).finalState "src" = ⟨false, false, some "boom", none⟩ := by
  have h := c3_retries_exhausted (T := Nat) ⟨[], []⟩ "src" (fun _ => .failure "boom")
    (fun _ => 0) 0 {} (fun _ => "boom") (by decide) (by decide) (fun i _ _ => rfl)
  constructor
  · rw [h.1]
    decide
  · rw [h.2]

/-- Claim C4: a cache hit on `cacheKey` returns the cached value with no
errors and the single `"Data loaded from cache"` warning, sets the
source's state to loaded, and issues no fetch; and a second call on the
resulting state (with any oracle and parser) returns the same cached
value again. -/
theorem c4_cache_hit {T : Type} (st : LoaderState T) (ds : String)
    (oracle oracle2 : Nat → FetchOutcome) (parser parser2 : CSVParseResult → T)
    (emptyT emptyT2 : T) (opts : LoadOptions) (v : T)
    (hcache : lookupKey st.dataCache (opts.cacheKey.getD ds) = some v) :
    (loadCSVData st ds oracle parser emptyT opts).result =
      ⟨v, [], ["Data loaded from cache"]⟩
    ∧ getLoadingState (loadCSVData st ds oracle parser emptyT opts).finalState ds =
        ⟨false, true, none, some ()⟩
    ∧ (loadCSVData st ds oracle parser emptyT opts).fetchAttempts = []
    ∧ (loadCSVData (loadCSVData st ds oracle parser emptyT opts).finalState ds
          oracle2 parser2 emptyT2 opts).result = ⟨v, [], ["Data loaded from cache"]⟩ := by
  have h1 : loadCSVData st ds oracle parser emptyT opts =
      ⟨⟨v, [], ["Data loaded from cache"]⟩,
       setLoadingState st ds ⟨some false, some true, some none, some (some ())⟩, []⟩ := by
    rw [loadCSVData, hcache]
  rw [h1]
  refine ⟨rfl, ?_, rfl, ?_⟩
  · rw [getLoadingState_set_self]
    rfl
  · have hcache2 : lookupKey
        (setLoadingState st ds
          ⟨some false, some true, some none, some (some ())⟩).dataCache
        (opts.cacheKey.getD ds) = some v := hcache
    rw [loadCSVData, hcache2]

theorem c4_cache_hit_witness :
    (loadCSVData (T := Nat) ⟨[], [("src", 7)]⟩ "src" (fun _ => .failure "x")
        (fun _ => 0) 0 {}).result = ⟨7, [], ["Data loaded from cache"]⟩
    ∧ (loadCSVData (T := Nat) ⟨[], [("src", 7)]⟩ "src" (fun _ => .failure "x")
        (fun _ => 0) 0 {}).fetchAttempts = [] := by
  have h := c4_cache_hit (T := Nat) ⟨[], [("src", 7)]⟩ "src" (fun _ => .failure "x")
    (fun _ => .success []) (fun _ => 0) (fun _ => 1) 0 3 {} 7 (by decide)
  exact ⟨h.1, h.2.2.1⟩
